import Mathlib

/-!
Shallow embedding of the model-lifecycle abstraction in
`src/timeseries/src/autogluon/timeseries/models/abstract/abstract_timeseries_model.py`
(classes `TimeSeriesModelBase` and `AbstractTimeSeriesModel`).

Modelling conventions:
- Python floats (quantile levels, time limits) are embedded as rationals `ℚ`;
  rational literals are written with `mkRat` so that concrete instances evaluate.
- Python dicts are embedded as association lists; `dictUnion` embeds the dict
  union operator `a | b` for dicts whose keys are unique.
- Python dict keys are `PyKey` (string keys and, as a stand-in for arbitrary
  non-string hashable keys, integer keys); values are `PyVal`.  A search-space
  value (an `autogluon.common.space.Space` instance) is the `searchSpace` atom.
- Filesystem paths are lists of path components; `os.path.join(p, c)` becomes
  `p ++ [c]` and `os.path.dirname` becomes `List.dropLast`.
- The dataframe container `TimeSeriesDataFrame` is an external collaborator and
  is embedded by its column index only (`TSDataFrame`); prediction columns are
  `Col.mean` or `Col.quantile q`, embedding the string column labels `"mean"`
  and `str(q)` (string conversion of distinct floats is injective).
-/

/-- Embeds a Python dict key: either a string key or (standing in for any other
hashable key type) an integer key. -/
inductive PyKey where
  | str (s : String)
  | intKey (n : Int)
deriving DecidableEq, Repr

/-- Embeds an atomic Python value appearing among hyperparameter values:
`None`, booleans, integers, floats (as rationals), strings, or a
hyperparameter search-space object (`autogluon.common.space.Space`). -/
inductive PyAtom where
  | none
  | bool (b : Bool)
  | int (n : Int)
  | rat (q : ℚ)
  | str (s : String)
  | searchSpace
deriving DecidableEq, Repr

/-- Embeds a Python value: an atom, or a dict of atoms (one nesting level
suffices for every dict value the abstract model class inspects). -/
inductive PyVal where
  | atom (a : PyAtom)
  | dict (entries : List (PyKey × PyAtom))
deriving DecidableEq, Repr

def PyKey.isStr : PyKey → Bool
  | .str _ => true
  | .intKey _ => false

/-- Embeds `isinstance(v, space.Space)` for an embedded hyperparameter value. -/
def PyVal.isSearchSpace : PyVal → Bool
  | .atom .searchSpace => true
  | _ => false

instance {ε α : Type} [DecidableEq ε] [DecidableEq α] : DecidableEq (Except ε α) := fun x y =>
  match x, y with
  | .ok a, .ok b =>
      match decEq a b with
      | isTrue h => isTrue (h ▸ rfl)
      | isFalse h => isFalse (fun hh => h (Except.ok.inj hh))
  | .error a, .error b =>
      match decEq a b with
      | isTrue h => isTrue (h ▸ rfl)
      | isFalse h => isFalse (fun hh => h (Except.error.inj hh))
  | .ok _, .error _ => isFalse (fun hh => Except.noConfusion hh)
  | .error _, .ok _ => isFalse (fun hh => Except.noConfusion hh)

/-- Embeds the Python dict union `a | b` (PEP 584) for dicts represented as
association lists with unique keys: keys of `a` keep their position but take
the value from `b` on collision, and keys only in `b` are appended in order. -/
def dictUnion {κ α : Type} [BEq κ] (a b : List (κ × α)) : List (κ × α) :=
  a.map (fun e =>
    match b.lookup e.1 with
    | some v => (e.1, v)
    | none => e) ++
  b.filter (fun e => (a.lookup e.1).isNone)

/-- Embeds the column labels of a prediction table: the `"mean"` column or the
column labelled `str(q)` for a quantile level `q`. -/
inductive Col where
  | mean
  | quantile (q : ℚ)
deriving DecidableEq, Repr

/-- Embeds the external `TimeSeriesDataFrame` container by its column index;
its row contents are out of scope (external collaborator). -/
structure TSDataFrame where
  columns : List Col
deriving DecidableEq, Repr

/-- Embeds the evaluation-metric handle as seen by this class: the only
attribute the abstract model reads is `optimized_by_median`. -/
structure EvalMetric where
  optimized_by_median : Bool
deriving DecidableEq, Repr

/-- Embeds the class-level attributes of a concrete model class:
`cls.__name__` and the `_supports_*` capability flags. -/
structure ModelClassInfo where
  cls_name : String
  supports_known_covariates : Bool
  supports_past_covariates : Bool
  supports_static_features : Bool
deriving DecidableEq, Repr

/-- Embeds the state of a `TimeSeriesModelBase` instance: the fields set by
`__init__` (identity, configuration, hyperparameter split, timing statistics,
validation score, OOF holder), plus the class attributes of its class. -/
structure TSModel where
  cls : ModelClassInfo
  name : String
  path_root : List String
  path : List String
  eval_metric : EvalMetric
  target : String
  freq : Option String
  prediction_length : Nat
  quantile_levels : List ℚ
  must_drop_median : Bool
  hyperparameters : List (PyKey × PyVal)
  extra_ag_args : List (PyKey × PyAtom)
  oof_predictions : Option (List TSDataFrame)
  fit_time : Option ℚ
  predict_time : Option ℚ
  predict_1_time : Option ℚ
  val_score : Option ℚ
deriving DecidableEq, Repr

/-- The reserved auxiliary-arguments key, constant `AG_ARGS_FIT` imported from
`autogluon.core.constants`. -/
def AG_ARGS_FIT : String := "ag_args_fit"

/-- The refit-full name suffix, constant `REFIT_FULL_SUFFIX` imported from
`autogluon.core.constants`. -/
def REFIT_FULL_SUFFIX : String := "_FULL"

/-- Class attribute `model_file_name` of `TimeSeriesModelBase`. -/
def model_file_name : String := "model.pkl"

/-- Class attribute `_oof_filename` of `TimeSeriesModelBase`. -/
def oof_filename : String := "oof.pkl"

/-- Class attribute `default_max_time_limit_ratio = 0.9`. -/
def default_max_time_limit_ratio : ℚ := mkRat 9 10

/-- Embeds `TimeSeriesModelBase._check_and_split_hyperparameters`: warn about
non-string keys (returned as the third component), pop the reserved
`AG_ARGS_FIT` key (defaulting to an empty dict), fail if the popped value is
not a dict, and return `(hyperparameters, extra_ag_args, warned keys)`. -/
def checkAndSplitHyperparameters (hyperparameters : Option (List (PyKey × PyVal))) :
    Except String (List (PyKey × PyVal) × List (PyKey × PyAtom) × List PyKey) :=
  let hp := hyperparameters.getD []
  let warned := (hp.filter (fun e => !e.1.isStr)).map (fun e => e.1)
  let extra_ag_args := (hp.lookup (PyKey.str AG_ARGS_FIT)).getD (PyVal.dict [])
  let remaining := hp.filter (fun e => e.1 != PyKey.str AG_ARGS_FIT)
  match extra_ag_args with
  | PyVal.dict d => Except.ok (remaining, d, warned)
  | PyVal.atom _ => Except.error "Invalid hyperparameter type for `ag_args_fit`. Expected dict"

/-- Embeds `name or re.sub(r"Model$", "", self.__class__.__name__)`:
the default model name strips one trailing `"Model"` from the class name. -/
def defaultName (cls_name : String) : String :=
  if cls_name.endsWith "Model" then cls_name.dropRight 5 else cls_name

/-- Embeds `TimeSeriesModelBase.__init__`.  The `path = None` branch (which
generates a unique output directory through the external `setup_outputdir`)
is out of scope, so the root path is a required argument here.  Resolution of
the metric handle (`check_get_evaluation_metric`, an external collaborator) is
embedded by passing the resolved `EvalMetric` directly. -/
def initModel (cls : ModelClassInfo) (path : List String) (name : Option String)
    (hyperparameters : Option (List (PyKey × PyVal))) (freq : Option String)
    (prediction_length : Nat) (target : String) (quantile_levels : List ℚ)
    (eval_metric : EvalMetric) : Except String TSModel :=
  let resolved_name :=
    match name with
    | some n => if n = "" then defaultName cls.cls_name else n
    | none => defaultName cls.cls_name
  let full_path := path ++ [resolved_name]
  if quantile_levels.all (fun q => decide (0 < q) && decide (q < 1)) then
    let mdm_qls : Bool × List ℚ :=
      if mkRat 1 2 ∈ quantile_levels then (false, quantile_levels)
      else (true, List.insertionSort (· ≤ ·) ((mkRat 1 2 :: quantile_levels).dedup))
    match checkAndSplitHyperparameters hyperparameters with
    | Except.error e => Except.error e
    | Except.ok (hps, extra, _warned) =>
        Except.ok
          { cls := cls
            name := resolved_name
            path_root := path
            path := full_path
            eval_metric := eval_metric
            target := target
            freq := freq
            prediction_length := prediction_length
            quantile_levels := mdm_qls.2
            must_drop_median := mdm_qls.1
            hyperparameters := hps
            extra_ag_args := extra
            oof_predictions := none
            fit_time := none
            predict_time := none
            predict_1_time := none
            val_score := none }
  else
    Except.error "Invalid quantile_levels specified. Quantiles must be between 0 and 1 (exclusive)."

/-- Embeds `TimeSeriesModelBase._get_default_hyperparameters`, which returns
an empty dict on the base class. -/
def getDefaultHyperparameters (_m : TSModel) : List (PyKey × PyVal) := []

/-- Embeds `TimeSeriesModelBase.get_hyperparameters`:
the dict `{**self._get_default_hyperparameters(), **self._hyperparameters}`. -/
def getHyperparameters (m : TSModel) : List (PyKey × PyVal) :=
  dictUnion (getDefaultHyperparameters m) m.hyperparameters

/-- Embeds the property `TimeSeriesModelBase.supports_known_covariates`. -/
def supportsKnownCovariates (m : TSModel) : Bool :=
  (match (getHyperparameters m).lookup (PyKey.str "covariate_regressor") with
   | some v => v != PyVal.atom PyAtom.none
   | none => false) ||
  m.cls.supports_known_covariates

/-- Embeds the property `TimeSeriesModelBase.supports_past_covariates`. -/
def supportsPastCovariates (m : TSModel) : Bool :=
  m.cls.supports_past_covariates

/-- Embeds the property `TimeSeriesModelBase.supports_static_features`. -/
def supportsStaticFeatures (m : TSModel) : Bool :=
  (match (getHyperparameters m).lookup (PyKey.str "covariate_regressor") with
   | some v => v != PyVal.atom PyAtom.none
   | none => false) ||
  m.cls.supports_static_features

/-- Reads a numeric auxiliary argument from the `extra_ag_args` dict:
embeds `self._extra_ag_args.get(key)` for keys whose values are numbers
(`max_time_limit_ratio`, `max_time_limit`). -/
def agArgsGetRat (args : List (PyKey × PyAtom)) (key : String) : Option ℚ :=
  match args.lookup (PyKey.str key) with
  | some (PyAtom.rat q) => some q
  | _ => none

/-- Embeds `AbstractTimeSeriesModel._preprocess_time_limit`: multiply by
`max_time_limit_ratio` (auxiliary argument, default 0.9) and cap at
`max_time_limit` when that auxiliary argument is set. -/
def preprocessTimeLimit (m : TSModel) (time_limit : ℚ) : ℚ :=
  let ratio := (agArgsGetRat m.extra_ag_args "max_time_limit_ratio").getD
    default_max_time_limit_ratio
  let tl := time_limit * ratio
  match agArgsGetRat m.extra_ag_args "max_time_limit" with
  | some cap => min tl cap
  | none => tl

/-- Embeds `TimeSeriesModelBase._get_system_resources()`: the dict
`{"num_cpus": ..., "num_gpus": ...}` obtained from the external resource
manager, here parameterized by the discovered counts. -/
def systemResources (num_cpus num_gpus : Nat) : List (String × PyVal) :=
  [("num_cpus", PyVal.atom (PyAtom.int num_cpus)),
   ("num_gpus", PyVal.atom (PyAtom.int num_gpus))]

/-- Outcome of a `fit` call: either the private training hook `_fit` was
invoked with the given adjusted time limit and keyword arguments, or the
dedicated `TimeLimitExceeded` exception was raised, or a generic `ValueError`
was raised. -/
inductive FitOutcome where
  | fitted (time_limit : Option ℚ) (kwargs : List (String × PyVal))
  | timeLimitExceeded
  | error (msg : String)
deriving DecidableEq, Repr

/-- Embeds the time-budget and delegation logic of
`AbstractTimeSeriesModel.fit` (lines 506-521): subtract the elapsed wall time
spent on the preceding transform/preprocessing steps, apply
`_preprocess_time_limit`, raise `TimeLimitExceeded` if no budget remains, and
otherwise invoke `_fit` with the system resources dict merged (dict union)
with the caller-supplied keyword arguments.  The data-transform steps
(lines 474-504) act on the external dataframe container and are out of scope;
their wall-clock cost is the `elapsed` parameter. -/
def fitModel (m : TSModel) (time_limit : Option ℚ) (elapsed : ℚ)
    (num_cpus num_gpus : Nat) (kwargs : List (String × PyVal)) : FitOutcome :=
  match time_limit with
  | none => FitOutcome.fitted none (dictUnion (systemResources num_cpus num_gpus) kwargs)
  | some tl =>
      let remaining := preprocessTimeLimit m (tl - elapsed)
      if remaining ≤ 0 then FitOutcome.timeLimitExceeded
      else FitOutcome.fitted (some remaining)
        (dictUnion (systemResources num_cpus num_gpus) kwargs)

/-- Embeds `AbstractTimeSeriesModel._check_fit_params`: raise a `ValueError`
if any hyperparameter value is still an unresolved search space. -/
def checkFitParams (m : TSModel) : Except String Unit :=
  if (getHyperparameters m).any (fun e => e.2.isSearchSpace) then
    Except.error "Hyperparameter spaces provided to `fit`. Please provide concrete values as hyperparameters when initializing or use `hyperparameter_tune` instead."
  else Except.ok ()

/-- Modelled from the spec: the caller-side wiring that invokes
`_check_fit_params` before entering `fit` is not under `src/` (only the check
itself is; its caller lives in the trainer / tunable mixin).  Per the spec,
search spaces present at fit time fail the fit entry point with the
descriptive `ValueError` of `_check_fit_params` before any training occurs. -/
def fitWithParamCheck (m : TSModel) (time_limit : Option ℚ) (elapsed : ℚ)
    (num_cpus num_gpus : Nat) (kwargs : List (String × PyVal)) : FitOutcome :=
  match checkFitParams m with
  | Except.error e => FitOutcome.error e
  | Except.ok _ => fitModel m time_limit elapsed num_cpus num_gpus kwargs

/-- Embeds the quantile-column reconciliation of
`AbstractTimeSeriesModel.predict` (lines 611-620) as a function on the column
index of the table returned by the `_predict` hook: reindex to
`["mean"] + [str(q) for q in self.quantile_levels]` when the columns differ,
then drop the `"0.5"` column when it is present and `must_drop_median` is
set.  The median overwrite of the `"mean"` values (when the metric is
optimized by the median) changes cell values, not columns; the covariate
regressor and target scaler inverse transforms (lines 622-636) are external
value-level collaborators that leave the column index unchanged. -/
def predictColumns (m : TSModel) (raw_columns : List Col) : List Col :=
  let column_order := Col.mean :: m.quantile_levels.map Col.quantile
  let predictions := if raw_columns = column_order then raw_columns else column_order
  if Col.quantile (mkRat 1 2) ∈ predictions then
    if m.must_drop_median then predictions.filter (fun c => c != Col.quantile (mkRat 1 2))
    else predictions
  else predictions

/-- A serialized artifact written by `save`: either a pickled model or the
pickled OOF-predictions list. -/
inductive SavedObject where
  | model (m : TSModel)
  | oofList (preds : List TSDataFrame)
deriving DecidableEq, Repr

/-- Embeds `TimeSeriesModelBase.save`: write the OOF predictions (when
present) to `<path>/utils/oof.pkl`, pickle the model itself to
`<path>/model.pkl` with the in-memory OOF field temporarily cleared, restore
the field, and return the path.  The result is
`(in-memory model after the call, artifacts written, returned path)`. -/
def saveModel (m : TSModel) (path : Option (List String)) :
    TSModel × List (List String × SavedObject) × List String :=
  let p := path.getD m.path
  let oof_artifacts :=
    match m.oof_predictions with
    | some oof => [(p ++ ["utils", oof_filename], SavedObject.oofList oof)]
    | none => []
  let stashed := m.oof_predictions
  let cleared : TSModel := { m with oof_predictions := none }
  let restored : TSModel := { cleared with oof_predictions := stashed }
  (restored, oof_artifacts ++ [(p ++ [model_file_name], SavedObject.model cleared)], p)

/-- Embeds `TimeSeriesModelBase.set_contexts`: point `path` at the loading
location and recompute `path_root` as its parent. -/
def setContexts (m : TSModel) (path_context : List String) : TSModel :=
  { m with path := path_context, path_root := path_context.dropLast }

/-- Embeds `TimeSeriesModelBase.load` against an explicit artifact store:
unpickle `<path>/model.pkl`, reset paths when requested, and lazily load the
OOF artifact when `load_oof` is requested and no OOF is present. -/
def loadModel (disk : List (List String × SavedObject)) (path : List String)
    (reset_paths : Bool) (load_oof : Bool) : Option TSModel :=
  match disk.lookup (path ++ [model_file_name]) with
  | some (SavedObject.model m0) =>
      let m1 := if reset_paths then setContexts m0 path else m0
      if load_oof && m1.oof_predictions.isNone then
        match disk.lookup (path ++ ["utils", oof_filename]) with
        | some (SavedObject.oofList oof) => some { m1 with oof_predictions := some oof }
        | _ => none
      else some m1
  | _ => none

/-- Embeds `TimeSeriesModelBase.rename`: rebuild `path` from the parent
directory of the current path (or from the path itself when the current name
is empty) plus the new name. -/
def renameModel (m : TSModel) (new_name : String) : TSModel :=
  if m.name ≠ "" then { m with path := m.path.dropLast ++ [new_name], name := new_name }
  else { m with path := m.path ++ [new_name], name := new_name }

/-- Embeds `TimeSeriesModelBase.convert_to_refit_full_via_copy`: rename to the
refit-full name, save to the renamed path, rename back, reload the saved
artifact as an independent model, and clear its `val_score` and
`predict_time`.  Returns `(refit model, the original model object after the
call)`; `none` is unreachable (the artifact read back was just written). -/
def convertToRefitFullViaCopy (m : TSModel) : Option (TSModel × TSModel) :=
  let previous_name := m.name
  let renamed := renameModel m (m.name ++ REFIT_FULL_SUFFIX)
  let refit_model_path := renamed.path
  let saved := saveModel renamed (some renamed.path)
  let restored := renameModel saved.1 previous_name
  match loadModel saved.2.1 refit_model_path true false with
  | some refit_model =>
      some ({ refit_model with val_score := none, predict_time := none }, restored)
  | none => none

/-- A fixed concrete model used by witnesses. -/
def sampleCls : ModelClassInfo :=
  { cls_name := "SampleModel"
    supports_known_covariates := false
    supports_past_covariates := false
    supports_static_features := false }

/-- A fixed concrete model state used by witnesses, as produced by
construction with quantile levels `(0.1, 0.5, 0.9)`. -/
def sampleModel : TSModel :=
  { cls := sampleCls
    name := "Sample"
    path_root := ["root"]
    path := ["root", "Sample"]
    eval_metric := { optimized_by_median := false }
    target := "target"
    freq := some "D"
    prediction_length := 1
    quantile_levels := [mkRat 1 10, mkRat 1 2, mkRat 9 10]
    must_drop_median := false
    hyperparameters := []
    extra_ag_args := []
    oof_predictions := none
    fit_time := none
    predict_time := none
    predict_1_time := none
    val_score := none }

/-- A fitted concrete model used by the refit-copy witness. -/
def fittedSampleModel : TSModel :=
  { sampleModel with
    val_score := some 1
    predict_time := some 2
    fit_time := some 3
    oof_predictions := some [⟨[Col.mean]⟩] }

theorem lookup_append_eq {κ α : Type} [BEq κ] (l₁ l₂ : List (κ × α)) (k : κ) :
    (l₁ ++ l₂).lookup k =
      match l₁.lookup k with
      | some v => some v
      | none => l₂.lookup k := by
  induction l₁ with
  | nil => simp [List.lookup]
  | cons e t ih =>
      obtain ⟨k1, v1⟩ := e
      simp only [List.cons_append, List.lookup]
      cases h : k == k1 <;> simp [ih]

theorem lookup_map_update {κ α : Type} [BEq κ] [LawfulBEq κ] (a b : List (κ × α)) (k : κ) :
    (a.map (fun e =>
      match b.lookup e.1 with
      | some v => (e.1, v)
      | none => e)).lookup k =
      match a.lookup k with
      | some v => some ((b.lookup k).getD v)
      | none => none := by
  induction a with
  | nil => rfl
  | cons e t ih =>
      obtain ⟨k1, v1⟩ := e
      cases hb : b.lookup k1
      · simp only [List.map_cons, hb, List.lookup]
        cases hbeq : k == k1
        · exact ih
        · have hkk : k = k1 := eq_of_beq hbeq
          subst hkk
          rw [hb]
          rfl
      · simp only [List.map_cons, hb, List.lookup]
        cases hbeq : k == k1
        · exact ih
        · have hkk : k = k1 := eq_of_beq hbeq
          subst hkk
          rw [hb]
          rfl

theorem lookup_filter_isNone {κ α : Type} [BEq κ] [LawfulBEq κ] (a b : List (κ × α)) (k : κ)
    (h : a.lookup k = none) :
    (b.filter (fun e => (a.lookup e.1).isNone)).lookup k = b.lookup k := by
  induction b with
  | nil => rfl
  | cons e tb ih =>
      obtain ⟨k2, v2⟩ := e
      rw [List.filter_cons]
      cases hbeq : k == k2
      · cases hp : ((a.lookup k2).isNone : Bool) <;>
          simp [hp, List.lookup, hbeq, ih]
      · have hkk : k = k2 := eq_of_beq hbeq
        subst hkk
        rw [h]
        simp [List.lookup]

theorem lookup_dictUnion {κ α : Type} [BEq κ] [LawfulBEq κ] (a b : List (κ × α)) (k : κ) :
    (dictUnion a b).lookup k =
      match a.lookup k with
      | some v => some ((b.lookup k).getD v)
      | none => b.lookup k := by
  unfold dictUnion
  rw [lookup_append_eq, lookup_map_update]
  cases ha : a.lookup k
  · rw [lookup_filter_isNone a b k ha]
  · rfl

theorem dictUnion_nil {κ α : Type} [BEq κ] (b : List (κ × α)) : dictUnion [] b = b := by
  simp [dictUnion, List.lookup]

theorem filter_ne_of_lookup_none {κ α : Type} [BEq κ] [LawfulBEq κ]
    (l : List (κ × α)) (k : κ) (h : l.lookup k = none) :
    l.filter (fun e => e.1 != k) = l := by
  induction l with
  | nil => rfl
  | cons e t ih =>
      obtain ⟨k1, v1⟩ := e
      rw [List.lookup] at h
      cases hbeq : k == k1
      · rw [hbeq] at h
        have hne : k1 ≠ k := fun hh => by
          rw [hh] at hbeq
          simp at hbeq
        rw [List.filter_cons]
        have hcond : (((k1, v1) : κ × α).1 != k) = true := by
          simp [hne]
        rw [if_pos hcond, ih h]
      · rw [hbeq] at h
        simp at h

/-- Claim C3: for every non-None time limit handed to `fit`, the budget passed
to the training hook equals `min((time_limit - elapsed) * ratio, cap)`, where
`ratio` is the auxiliary argument `max_time_limit_ratio` (default 0.9) and
`cap` is the auxiliary argument `max_time_limit`; with no cap set, no capping
occurs. -/
theorem fit_time_budget (m : TSModel) (tl elapsed : ℚ) (num_cpus num_gpus : Nat)
    (kwargs : List (String × PyVal))
    (h : 0 < preprocessTimeLimit m (tl - elapsed)) :
    fitModel m (some tl) elapsed num_cpus num_gpus kwargs =
      FitOutcome.fitted (some (preprocessTimeLimit m (tl - elapsed)))
        (dictUnion (systemResources num_cpus num_gpus) kwargs) ∧
    preprocessTimeLimit m (tl - elapsed) =
      (match agArgsGetRat m.extra_ag_args "max_time_limit" with
       | some cap => min ((tl - elapsed) *
           ((agArgsGetRat m.extra_ag_args "max_time_limit_ratio").getD
             default_max_time_limit_ratio)) cap
       | none => (tl - elapsed) *
           ((agArgsGetRat m.extra_ag_args "max_time_limit_ratio").getD
             default_max_time_limit_ratio)) := by
  constructor
  · simp only [fitModel]
    rw [if_neg (not_le.mpr h)]
  · rfl

/-- Witness for claim C3: with no auxiliary overrides, `time_limit = 100` and
10 seconds of elapsed preprocessing time, the training hook receives
`(100 - 10) * 0.9 = 81`. -/
theorem fit_time_budget_witness :
    preprocessTimeLimit sampleModel ((100 : ℚ) - 10) = 81 ∧
    0 < preprocessTimeLimit sampleModel ((100 : ℚ) - 10) ∧
    fitModel sampleModel (some 100) 10 8 1 [] =
      FitOutcome.fitted (some (preprocessTimeLimit sampleModel ((100 : ℚ) - 10)))
        (dictUnion (systemResources 8 1) []) := by
  have hval : preprocessTimeLimit sampleModel ((100 : ℚ) - 10) = 81 := by
    simp [preprocessTimeLimit, agArgsGetRat, sampleModel, default_max_time_limit_ratio,
      List.lookup]
    norm_num [Rat.mkRat_eq_div]
  have h : 0 < preprocessTimeLimit sampleModel ((100 : ℚ) - 10) := by
    rw [hval]
    norm_num
  exact ⟨hval, h, (fit_time_budget sampleModel 100 10 8 1 [] h).1⟩

/-- Claim C4: when the adjusted remaining budget is not positive, `fit` raises
the dedicated `TimeLimitExceeded` signal (a constructor distinct from generic
errors) and the training hook `_fit` is never invoked. -/
theorem fit_time_exceeded (m : TSModel) (tl elapsed : ℚ) (num_cpus num_gpus : Nat)
    (kwargs : List (String × PyVal))
    (h : preprocessTimeLimit m (tl - elapsed) ≤ 0) :
    fitModel m (some tl) elapsed num_cpus num_gpus kwargs = FitOutcome.timeLimitExceeded ∧
    (∀ t kw, fitModel m (some tl) elapsed num_cpus num_gpus kwargs ≠
      FitOutcome.fitted t kw) ∧
    (∀ msg, fitModel m (some tl) elapsed num_cpus num_gpus kwargs ≠
      FitOutcome.error msg) := by
  have heq : fitModel m (some tl) elapsed num_cpus num_gpus kwargs =
      FitOutcome.timeLimitExceeded := by
    simp only [fitModel]
    rw [if_pos h]
  refine ⟨heq, fun t kw hc => ?_, fun msg hc => ?_⟩
  · rw [heq] at hc
    exact FitOutcome.noConfusion hc
  · rw [heq] at hc
    exact FitOutcome.noConfusion hc

/-- Witness for claim C4: with `time_limit = 5` and 10 seconds elapsed, the
adjusted budget is negative and `fit` raises `TimeLimitExceeded`. -/
theorem fit_time_exceeded_witness :
    preprocessTimeLimit sampleModel ((5 : ℚ) - 10) ≤ 0 ∧
    fitModel sampleModel (some 5) 10 8 1 [] = FitOutcome.timeLimitExceeded := by
  have h : preprocessTimeLimit sampleModel ((5 : ℚ) - 10) ≤ 0 := by
    simp [preprocessTimeLimit, agArgsGetRat, sampleModel, default_max_time_limit_ratio,
      List.lookup]
    norm_num [Rat.mkRat_eq_div]
  exact ⟨h, (fit_time_exceeded sampleModel 5 10 8 1 [] h).1⟩

/-- Claim C5: when any hyperparameter value is still an unresolved search
space at fit time, the fit entry point fails with the descriptive error that
directs the caller to `hyperparameter_tune`, and never reaches the training
hook. -/
theorem fit_search_space_error (m : TSModel) (time_limit : Option ℚ) (elapsed : ℚ)
    (num_cpus num_gpus : Nat) (kwargs : List (String × PyVal))
    (h : ∃ e ∈ getHyperparameters m, e.2.isSearchSpace = true) :
    fitWithParamCheck m time_limit elapsed num_cpus num_gpus kwargs =
      FitOutcome.error "Hyperparameter spaces provided to `fit`. Please provide concrete values as hyperparameters when initializing or use `hyperparameter_tune` instead." ∧
    (∀ t kw, fitWithParamCheck m time_limit elapsed num_cpus num_gpus kwargs ≠
      FitOutcome.fitted t kw) := by
  have hany : (getHyperparameters m).any (fun e => e.2.isSearchSpace) = true :=
    List.any_eq_true.mpr h
  have heq : fitWithParamCheck m time_limit elapsed num_cpus num_gpus kwargs =
      FitOutcome.error "Hyperparameter spaces provided to `fit`. Please provide concrete values as hyperparameters when initializing or use `hyperparameter_tune` instead." := by
    simp only [fitWithParamCheck, checkFitParams]
    rw [if_pos hany]
  refine ⟨heq, fun t kw hc => ?_⟩
  rw [heq] at hc
  exact FitOutcome.noConfusion hc

/-- Witness for claim C5: a model whose hyperparameters contain a search-space
value fails the fit entry point with the descriptive error. -/
theorem fit_search_space_error_witness :
    (∃ e ∈ getHyperparameters
        { sampleModel with
          hyperparameters := [(PyKey.str "lr", PyVal.atom PyAtom.searchSpace)] },
      e.2.isSearchSpace = true) ∧
    fitWithParamCheck
        { sampleModel with
          hyperparameters := [(PyKey.str "lr", PyVal.atom PyAtom.searchSpace)] }
        none 0 8 1 [] =
      FitOutcome.error "Hyperparameter spaces provided to `fit`. Please provide concrete values as hyperparameters when initializing or use `hyperparameter_tune` instead." := by
  refine ⟨by decide, ?_⟩
  exact (fit_search_space_error
    { sampleModel with
      hyperparameters := [(PyKey.str "lr", PyVal.atom PyAtom.searchSpace)] }
    none 0 8 1 [] (by decide)).1

/-- Claim C6: the keyword arguments passed to the training hook `_fit` are the
discovered system resources merged with the caller-supplied keyword
arguments, with caller-supplied keys taking precedence on collision. -/
theorem fit_kwargs_merge (m : TSModel) (elapsed : ℚ) (num_cpus num_gpus : Nat)
    (kwargs : List (String × PyVal)) :
    fitModel m none elapsed num_cpus num_gpus kwargs =
      FitOutcome.fitted none (dictUnion (systemResources num_cpus num_gpus) kwargs) ∧
    (∀ k v, kwargs.lookup k = some v →
      (dictUnion (systemResources num_cpus num_gpus) kwargs).lookup k = some v) ∧
    (kwargs.lookup "num_cpus" = none →
      (dictUnion (systemResources num_cpus num_gpus) kwargs).lookup "num_cpus" =
        some (PyVal.atom (PyAtom.int num_cpus))) ∧
    (kwargs.lookup "num_gpus" = none →
      (dictUnion (systemResources num_cpus num_gpus) kwargs).lookup "num_gpus" =
        some (PyVal.atom (PyAtom.int num_gpus))) := by
  refine ⟨rfl, ?_, ?_, ?_⟩
  · intro k v hkv
    rw [lookup_dictUnion]
    cases ha : (systemResources num_cpus num_gpus).lookup k <;> simp [hkv]
  · intro h
    rw [lookup_dictUnion]
    simp [systemResources, List.lookup, h]
  · intro h
    rw [lookup_dictUnion]
    have h1 : (("num_gpus" == "num_cpus") : Bool) = false := by decide
    simp [systemResources, List.lookup, h1, h]

/-- Witness for claim C6: with discovered resources `num_cpus = 8`,
`num_gpus = 1` and a caller override `num_cpus = 16`, the hook receives the
caller value for `num_cpus` and the discovered value for `num_gpus`. -/
theorem fit_kwargs_merge_witness :
    ([("num_cpus", PyVal.atom (PyAtom.int 16))].lookup "num_cpus" =
      some (PyVal.atom (PyAtom.int 16))) ∧
    (dictUnion (systemResources 8 1)
        [("num_cpus", PyVal.atom (PyAtom.int 16))]).lookup "num_cpus" =
      some (PyVal.atom (PyAtom.int 16)) ∧
    (dictUnion (systemResources 8 1)
        [("num_cpus", PyVal.atom (PyAtom.int 16))]).lookup "num_gpus" =
      some (PyVal.atom (PyAtom.int 1)) := by
  refine ⟨by decide, ?_, ?_⟩
  · exact (fit_kwargs_merge sampleModel 0 8 1
      [("num_cpus", PyVal.atom (PyAtom.int 16))]).2.1 "num_cpus"
      (PyVal.atom (PyAtom.int 16)) (by decide)
  · exact (fit_kwargs_merge sampleModel 0 8 1
      [("num_cpus", PyVal.atom (PyAtom.int 16))]).2.2.2 (by decide)

/-- Claim C10: a hyperparameter `covariate_regressor` that is set and not
None makes `supports_known_covariates` and `supports_static_features` true
regardless of the class-level flags, while `supports_past_covariates` depends
only on the class-level flag. -/
theorem supports_covariates_regressor (m : TSModel) (v : PyVal)
    (h : (getHyperparameters m).lookup (PyKey.str "covariate_regressor") = some v)
    (hv : v ≠ PyVal.atom PyAtom.none) :
    supportsKnownCovariates m = true ∧ supportsStaticFeatures m = true ∧
    (∀ m2 : TSModel, supportsPastCovariates m2 = m2.cls.supports_past_covariates) := by
  refine ⟨?_, ?_, fun m2 => rfl⟩
  · simp only [supportsKnownCovariates, h]
    simp [bne_iff_ne, hv]
  · simp only [supportsStaticFeatures, h]
    simp [bne_iff_ne, hv]

/-- Witness for claim C10: a model whose class flags are all false but whose
hyperparameters set a covariate regressor supports known covariates and
static features. -/
theorem supports_covariates_regressor_witness :
    ((getHyperparameters
        { sampleModel with
          hyperparameters :=
            [(PyKey.str "covariate_regressor", PyVal.atom (PyAtom.str "GBM"))] }).lookup
      (PyKey.str "covariate_regressor") = some (PyVal.atom (PyAtom.str "GBM"))) ∧
    PyVal.atom (PyAtom.str "GBM") ≠ PyVal.atom PyAtom.none ∧
    sampleCls.supports_known_covariates = false ∧
    sampleCls.supports_static_features = false ∧
    supportsKnownCovariates
        { sampleModel with
          hyperparameters :=
            [(PyKey.str "covariate_regressor", PyVal.atom (PyAtom.str "GBM"))] } = true ∧
    supportsStaticFeatures
        { sampleModel with
          hyperparameters :=
            [(PyKey.str "covariate_regressor", PyVal.atom (PyAtom.str "GBM"))] } = true := by
  refine ⟨by decide, by decide, by decide, by decide, ?_, ?_⟩
  · exact (supports_covariates_regressor
      { sampleModel with
        hyperparameters :=
          [(PyKey.str "covariate_regressor", PyVal.atom (PyAtom.str "GBM"))] }
      (PyVal.atom (PyAtom.str "GBM")) (by decide) (by decide)).1
  · exact (supports_covariates_regressor
      { sampleModel with
        hyperparameters :=
          [(PyKey.str "covariate_regressor", PyVal.atom (PyAtom.str "GBM"))] }
      (PyVal.atom (PyAtom.str "GBM")) (by decide) (by decide)).2.1

/-- Claim C7: the reserved auxiliary-arguments key is removed from the
hyperparameters mapping and its value stored separately; a non-dict value
under the reserved key fails construction; non-string keys only produce a
warning, never an error, and are kept. -/
theorem hyperparameter_split_contract (hp : List (PyKey × PyVal)) :
    (∀ d, hp.lookup (PyKey.str AG_ARGS_FIT) = some (PyVal.dict d) →
      checkAndSplitHyperparameters (some hp) =
        Except.ok (hp.filter (fun e => e.1 != PyKey.str AG_ARGS_FIT), d,
          (hp.filter (fun e => !e.1.isStr)).map (fun e => e.1))) ∧
    (hp.lookup (PyKey.str AG_ARGS_FIT) = none →
      checkAndSplitHyperparameters (some hp) =
        Except.ok (hp, [],
          (hp.filter (fun e => !e.1.isStr)).map (fun e => e.1))) ∧
    (∀ a, hp.lookup (PyKey.str AG_ARGS_FIT) = some (PyVal.atom a) →
      checkAndSplitHyperparameters (some hp) =
        Except.error "Invalid hyperparameter type for `ag_args_fit`. Expected dict") ∧
    (∀ a (cls : ModelClassInfo) (path : List String) (name : Option String)
        (freq : Option String) (plen : Nat) (target : String) (qls : List ℚ)
        (em : EvalMetric),
      hp.lookup (PyKey.str AG_ARGS_FIT) = some (PyVal.atom a) →
      (∀ q ∈ qls, 0 < q ∧ q < 1) →
      initModel cls path name (some hp) freq plen target qls em =
        Except.error "Invalid hyperparameter type for `ag_args_fit`. Expected dict") ∧
    (∀ res, checkAndSplitHyperparameters (some hp) = Except.ok res →
      ∀ e ∈ hp, e.1.isStr = false → e ∈ res.1 ∧ e.1 ∈ res.2.2) := by
  have herr : ∀ a, hp.lookup (PyKey.str AG_ARGS_FIT) = some (PyVal.atom a) →
      checkAndSplitHyperparameters (some hp) =
        Except.error "Invalid hyperparameter type for `ag_args_fit`. Expected dict" := by
    intro a ha
    simp [checkAndSplitHyperparameters, ha]
  refine ⟨?_, ?_, herr, ?_, ?_⟩
  · intro d hd
    simp [checkAndSplitHyperparameters, hd]
  · intro h0
    simp [checkAndSplitHyperparameters, h0,
      filter_ne_of_lookup_none hp (PyKey.str AG_ARGS_FIT) h0]
  · intro a cls path name freq plen target qls em ha hq
    have hall : qls.all (fun q => decide (0 < q) && decide (q < 1)) = true := by
      apply List.all_eq_true.mpr
      intro q hqq
      have h1 := (hq q hqq).1
      have h2 := (hq q hqq).2
      simp [h1, h2]
    simp only [initModel]
    rw [if_pos hall, herr a ha]
  · intro res hres e he hestr
    have hmem1 : e ∈ hp.filter (fun e => e.1 != PyKey.str AG_ARGS_FIT) := by
      apply List.mem_filter.mpr
      refine ⟨he, ?_⟩
      obtain ⟨k, v⟩ := e
      cases k with
      | str s => simp [PyKey.isStr] at hestr
      | intKey n => simp
    have hmem2 : e.1 ∈ (hp.filter (fun e => !e.1.isStr)).map (fun e => e.1) :=
      List.mem_map.mpr ⟨e, List.mem_filter.mpr ⟨he, by simp [hestr]⟩, rfl⟩
    simp only [checkAndSplitHyperparameters, Option.getD_some] at hres
    split at hres
    · have hr := Except.ok.inj hres
      rw [← hr]
      exact ⟨hmem1, hmem2⟩
    · exact absurd hres (by simp)

/-- Witness for claim C7: a hyperparameters mapping with a dict under the
reserved key and a non-string key splits into the remaining hyperparameters
(reserved key removed, non-string key kept) plus the auxiliary arguments,
with the non-string key warned about. -/
theorem hyperparameter_split_contract_witness :
    ([(PyKey.str "ag_args_fit",
        PyVal.dict [(PyKey.str "max_time_limit", PyAtom.rat (mkRat 50 1))]),
      (PyKey.intKey 7, PyVal.atom PyAtom.none)].lookup (PyKey.str AG_ARGS_FIT) =
      some (PyVal.dict [(PyKey.str "max_time_limit", PyAtom.rat (mkRat 50 1))])) ∧
    checkAndSplitHyperparameters
        (some [(PyKey.str "ag_args_fit",
            PyVal.dict [(PyKey.str "max_time_limit", PyAtom.rat (mkRat 50 1))]),
          (PyKey.intKey 7, PyVal.atom PyAtom.none)]) =
      Except.ok ([(PyKey.intKey 7, PyVal.atom PyAtom.none)],
        [(PyKey.str "max_time_limit", PyAtom.rat (mkRat 50 1))],
        [PyKey.intKey 7]) := by
  refine ⟨by decide, ?_⟩
  exact ((hyperparameter_split_contract
      [(PyKey.str "ag_args_fit",
          PyVal.dict [(PyKey.str "max_time_limit", PyAtom.rat (mkRat 50 1))]),
        (PyKey.intKey 7, PyVal.atom PyAtom.none)]).1
    [(PyKey.str "max_time_limit", PyAtom.rat (mkRat 50 1))] (by decide)).trans (by decide)

/-- Claim C8: `save` writes the OOF predictions (when present) to an artifact
path separate from the main model artifact, serializes the model with the
in-memory OOF field cleared, and leaves the in-memory model state unchanged
after the call. -/
theorem save_oof_separation (m : TSModel) (path : Option (List String)) :
    (saveModel m path).1 = m ∧
    (∀ oof, m.oof_predictions = some oof →
      (saveModel m path).2.1 =
        [((path.getD m.path) ++ ["utils", oof_filename], SavedObject.oofList oof),
         ((path.getD m.path) ++ [model_file_name],
           SavedObject.model { m with oof_predictions := none })] ∧
      (path.getD m.path) ++ ["utils", oof_filename] ≠
        (path.getD m.path) ++ [model_file_name]) ∧
    (m.oof_predictions = none →
      (saveModel m path).2.1 =
        [((path.getD m.path) ++ [model_file_name], SavedObject.model m)]) := by
  refine ⟨?_, ?_, ?_⟩
  · cases m
    rfl
  · intro oof ho
    constructor
    · simp [saveModel, ho]
    · intro hcontra
      simp [oof_filename, model_file_name] at hcontra
  · intro ho
    cases m
    simp_all [saveModel]

/-- Witness for claim C8: saving a model holding OOF predictions leaves it
unchanged and writes the OOF artifact and the OOF-cleared model artifact to
distinct paths. -/
theorem save_oof_separation_witness :
    ({ sampleModel with oof_predictions := some [⟨[Col.mean]⟩] } : TSModel).oof_predictions =
      some [⟨[Col.mean]⟩] ∧
    (saveModel { sampleModel with oof_predictions := some [⟨[Col.mean]⟩] } none).1 =
      { sampleModel with oof_predictions := some [⟨[Col.mean]⟩] } ∧
    (saveModel { sampleModel with oof_predictions := some [⟨[Col.mean]⟩] } none).2.1 =
      [(["root", "Sample", "utils", "oof.pkl"], SavedObject.oofList [⟨[Col.mean]⟩]),
       (["root", "Sample", "model.pkl"], SavedObject.model sampleModel)] := by
  refine ⟨by decide,
    (save_oof_separation { sampleModel with oof_predictions := some [⟨[Col.mean]⟩] } none).1,
    ?_⟩
  have h := ((save_oof_separation
      { sampleModel with oof_predictions := some [⟨[Col.mean]⟩] } none).2.1
    [⟨[Col.mean]⟩] (by decide)).1
  exact h.trans (by decide)

/-- Claim C1 is false as stated: the valid quantile levels `(0.9, 0.5, 0.1)`
contain 0.5, so the constructor stores them unchanged and the stored
`quantile_levels` is not a sorted set. -/
theorem init_quantile_levels_counterexample :
    Except.map TSModel.quantile_levels
        (initModel sampleCls ["root"] (some "M") none (some "D") 1 "target"
          [mkRat 9 10, mkRat 1 2, mkRat 1 10] ⟨false⟩) =
      Except.ok [mkRat 9 10, mkRat 1 2, mkRat 1 10] ∧
    ¬ List.Sorted (· ≤ ·) [mkRat 9 10, mkRat 1 2, mkRat 1 10] :=
  ⟨by decide, by decide⟩

/-- Claim C1 (amended): construction fails when any quantile level is not
strictly between 0 and 1; on success `must_drop_median` is true exactly when
0.5 was absent from the user levels, the stored levels always contain 0.5 and
lie in (0, 1), and when 0.5 was absent they equal
`sorted(set(0.5 :: user levels))` (sorted and duplicate-free); when 0.5 was
present the stored levels equal the user levels unchanged (so they are sorted
and duplicate-free only if the input was). -/
theorem init_quantile_levels (cls : ModelClassInfo) (path : List String)
    (name : Option String) (hps : Option (List (PyKey × PyVal))) (freq : Option String)
    (plen : Nat) (target : String) (qls : List ℚ) (em : EvalMetric) :
    (¬ (∀ q ∈ qls, 0 < q ∧ q < 1) →
      initModel cls path name hps freq plen target qls em =
        Except.error
          "Invalid quantile_levels specified. Quantiles must be between 0 and 1 (exclusive).") ∧
    (∀ m, initModel cls path name hps freq plen target qls em = Except.ok m →
      (m.must_drop_median = true ↔ mkRat 1 2 ∉ qls) ∧
      mkRat 1 2 ∈ m.quantile_levels ∧
      (∀ q ∈ m.quantile_levels, 0 < q ∧ q < 1) ∧
      (mkRat 1 2 ∈ qls → m.quantile_levels = qls) ∧
      (mkRat 1 2 ∉ qls →
        m.quantile_levels.Sorted (· ≤ ·) ∧ m.quantile_levels.Nodup ∧
        (∀ x, x ∈ m.quantile_levels ↔ x = mkRat 1 2 ∨ x ∈ qls))) := by
  constructor
  · intro hbad
    have hall : qls.all (fun q => decide (0 < q) && decide (q < 1)) = false := by
      cases hc : qls.all (fun q => decide (0 < q) && decide (q < 1))
      · rfl
      · exfalso
        apply hbad
        intro q hq
        have hb := List.all_eq_true.mp hc q hq
        simp at hb
        exact hb
    simp only [initModel]
    rw [if_neg (by simp [hall])]
  · intro m hok
    cases hall : qls.all (fun q => decide (0 < q) && decide (q < 1))
    · exfalso
      simp only [initModel] at hok
      rw [if_neg (by simp [hall])] at hok
      exact Except.noConfusion hok
    · have hvalid : ∀ q ∈ qls, 0 < q ∧ q < 1 := by
        intro q hq
        have hb := List.all_eq_true.mp hall q hq
        simp at hb
        exact hb
      simp only [initModel] at hok
      rw [if_pos hall] at hok
      cases hsplit : checkAndSplitHyperparameters hps with
      | error e =>
          rw [hsplit] at hok
          exact absurd hok (by simp)
      | ok r =>
          obtain ⟨hpsr, extra, warned⟩ := r
          rw [hsplit] at hok
          injection hok with hm
          subst hm
          by_cases hmed : mkRat 1 2 ∈ qls
          · rw [if_pos hmed]
            refine ⟨by simp [hmed], hmed, hvalid, fun _ => rfl,
              fun hcon => absurd hmed hcon⟩
          · rw [if_neg hmed]
            have hperm := List.perm_insertionSort (· ≤ ·) ((mkRat 1 2 :: qls).dedup)
            refine ⟨by simp [hmed], ?_, ?_, fun hcon => absurd hcon hmed,
              fun _ => ⟨?_, ?_, ?_⟩⟩
            · exact hperm.mem_iff.mpr (List.mem_dedup.mpr (List.mem_cons_self _ _))
            · intro q hq
              have hq2 : q ∈ mkRat 1 2 :: qls :=
                List.mem_dedup.mp (hperm.mem_iff.mp hq)
              rcases List.mem_cons.mp hq2 with h | h
              · subst h
                exact ⟨by decide, by decide⟩
              · exact hvalid q h
            · exact List.sorted_insertionSort (· ≤ ·) _
            · exact hperm.nodup_iff.mpr (List.nodup_dedup _)
            · intro x
              rw [List.Perm.mem_iff hperm, List.mem_dedup, List.mem_cons]

/-- Witness for claim C1 (amended): constructing with the single quantile
level 0.3 succeeds, sets `must_drop_median`, and stores the sorted
duplicate-free levels `[0.3, 0.5]`. -/
theorem init_quantile_levels_witness :
    initModel sampleCls ["root"] (some "M") none (some "D") 1 "target" [mkRat 3 10]
        ⟨false⟩ =
      Except.ok ((initModel sampleCls ["root"] (some "M") none (some "D") 1 "target"
        [mkRat 3 10] ⟨false⟩).toOption.getD sampleModel) ∧
    (((initModel sampleCls ["root"] (some "M") none (some "D") 1 "target" [mkRat 3 10]
        ⟨false⟩).toOption.getD sampleModel).must_drop_median = true ↔
      mkRat 1 2 ∉ [mkRat 3 10]) ∧
    ((initModel sampleCls ["root"] (some "M") none (some "D") 1 "target" [mkRat 3 10]
        ⟨false⟩).toOption.getD sampleModel).quantile_levels = [mkRat 3 10, mkRat 1 2] := by
  refine ⟨by decide, ?_, by decide⟩
  exact ((init_quantile_levels sampleCls ["root"] (some "M") none (some "D") 1 "target"
    [mkRat 3 10] ⟨false⟩).2 _ (by decide)).1

/-- Claim C2 is false as stated: a model constructed with the valid but
unsorted quantile levels `(0.9, 0.5, 0.1)` reconciles predictions to the
stored (unsorted) column order, not to the sorted order. -/
theorem predict_columns_counterexample :
    Except.map (fun m => predictColumns m [])
        (initModel sampleCls ["root"] (some "M") none (some "D") 1 "target"
          [mkRat 9 10, mkRat 1 2, mkRat 1 10] ⟨false⟩) =
      Except.ok [Col.mean, Col.quantile (mkRat 9 10), Col.quantile (mkRat 1 2),
        Col.quantile (mkRat 1 10)] ∧
    [Col.mean, Col.quantile (mkRat 9 10), Col.quantile (mkRat 1 2),
        Col.quantile (mkRat 1 10)] ≠
      Col.mean :: (List.insertionSort (· ≤ ·)
        [mkRat 9 10, mkRat 1 2, mkRat 1 10]).map Col.quantile :=
  ⟨by decide, by decide⟩

/-- Claim C2 (amended): for every model whose stored levels contain 0.5 (an
invariant of construction) and every column set emitted by the `_predict`
hook, `predict` returns columns exactly `"mean"` followed by one column per
stored quantile level in the stored order (which is the sorted order whenever
0.5 was absent from the user levels), with the `"0.5"` column removed when
`must_drop_median` is set; a mismatch with the emitted columns is corrected
by reindexing, not an error. -/
theorem predict_columns_reconcile (m : TSModel) (raw_columns : List Col)
    (hmed : mkRat 1 2 ∈ m.quantile_levels) :
    predictColumns m raw_columns =
      (if m.must_drop_median then
        (Col.mean :: m.quantile_levels.map Col.quantile).filter
          (fun c => c != Col.quantile (mkRat 1 2))
       else Col.mean :: m.quantile_levels.map Col.quantile) ∧
    (m.must_drop_median = true →
      Col.quantile (mkRat 1 2) ∉ predictColumns m raw_columns) := by
  have hmem : Col.quantile (mkRat 1 2) ∈ Col.mean :: m.quantile_levels.map Col.quantile :=
    List.mem_cons_of_mem _ (List.mem_map_of_mem Col.quantile hmed)
  have hre : predictColumns m raw_columns =
      (if m.must_drop_median then
        (Col.mean :: m.quantile_levels.map Col.quantile).filter
          (fun c => c != Col.quantile (mkRat 1 2))
       else Col.mean :: m.quantile_levels.map Col.quantile) := by
    simp only [predictColumns]
    by_cases hraw : raw_columns = Col.mean :: m.quantile_levels.map Col.quantile
    · rw [if_pos hraw, hraw, if_pos hmem]
    · rw [if_neg hraw, if_pos hmem]
  refine ⟨hre, fun hdrop => ?_⟩
  rw [hre, if_pos hdrop]
  intro hcon
  have hp := (List.mem_filter.mp hcon).2
  simp at hp


/-- Witness for claim C2 (amended): a model with stored levels
`[0.1, 0.5, 0.9]` and `must_drop_median` set reconciles any raw columns to
`["mean", "0.1", "0.9"]`, and the `"0.5"` column is absent. -/
theorem predict_columns_reconcile_witness :
    mkRat 1 2 ∈ ({ sampleModel with must_drop_median := true } : TSModel).quantile_levels ∧
    predictColumns { sampleModel with must_drop_median := true }
        [Col.quantile (mkRat 1 10)] =
      [Col.mean, Col.quantile (mkRat 1 10), Col.quantile (mkRat 9 10)] ∧
    Col.quantile (mkRat 1 2) ∉
      predictColumns { sampleModel with must_drop_median := true }
        [Col.quantile (mkRat 1 10)] := by
  refine ⟨by decide, ?_, ?_⟩
  · exact ((predict_columns_reconcile { sampleModel with must_drop_median := true }
      [Col.quantile (mkRat 1 10)] (by decide)).1).trans (by decide)
  · exact (predict_columns_reconcile { sampleModel with must_drop_median := true }
      [Col.quantile (mkRat 1 10)] (by decide)).2 (by decide)

theorem append_refit_ne_empty (s : String) : s ++ REFIT_FULL_SUFFIX ≠ "" := by
  intro h
  have h2 : (s ++ REFIT_FULL_SUFFIX).length = ("" : String).length :=
    congrArg String.length h
  rw [String.length_append] at h2
  have h3 : REFIT_FULL_SUFFIX.length = 5 := by decide
  have h4 : ("" : String).length = 0 := by decide
  rw [h3, h4] at h2
  omega

theorem artifact_paths_ne (p : List String) :
    ((p ++ [model_file_name]) == (p ++ ["utils", oof_filename])) = false := by
  apply beq_eq_false_iff_ne.mpr
  intro hc
  have h2 := List.append_cancel_left hc
  simp [model_file_name, oof_filename] at h2

theorem artifact_paths_ne2 (p : List String) (s : String) :
    ((p ++ [s, model_file_name]) == (p ++ [s, "utils", oof_filename])) = false := by
  apply beq_eq_false_iff_ne.mpr
  intro hc
  have h2 := List.append_cancel_left hc
  simp [model_file_name, oof_filename] at h2

/-- Claim C9: `convert_to_refit_full_via_copy` returns a model whose
`val_score` and `predict_time` are reset to None, whose name carries the
refit-full suffix, and whose fitted parameters and configuration are
preserved; the original model object is left unchanged by the operation. -/
theorem convert_refit_copy (m : TSModel) (h1 : m.name ≠ "")
    (h2 : m.path = m.path.dropLast ++ [m.name]) :
    (convertToRefitFullViaCopy m).map (fun r => r.2) = some m ∧
    (convertToRefitFullViaCopy m).map (fun r => (r.1.val_score, r.1.predict_time)) =
      some (none, none) ∧
    (convertToRefitFullViaCopy m).map (fun r => r.1.name) =
      some (m.name ++ REFIT_FULL_SUFFIX) ∧
    (convertToRefitFullViaCopy m).map (fun r =>
        (r.1.cls, r.1.eval_metric, r.1.target, r.1.freq, r.1.prediction_length,
         r.1.quantile_levels, r.1.must_drop_median, r.1.hyperparameters,
         r.1.extra_ag_args, r.1.fit_time)) =
      some (m.cls, m.eval_metric, m.target, m.freq, m.prediction_length,
         m.quantile_levels, m.must_drop_median, m.hyperparameters, m.extra_ag_args,
         m.fit_time) := by
  have hsuf : m.name ++ REFIT_FULL_SUFFIX ≠ "" := append_refit_ne_empty m.name
  have hmain : convertToRefitFullViaCopy m =
      some ({ m with
                path := m.path.dropLast ++ [m.name ++ REFIT_FULL_SUFFIX],
                path_root := (m.path.dropLast ++ [m.name ++ REFIT_FULL_SUFFIX]).dropLast,
                name := m.name ++ REFIT_FULL_SUFFIX,
                oof_predictions := none,
                val_score := none,
                predict_time := none }, m) := by
    obtain ⟨cls, nm, proot, p, em, tgt, fr, plen, qls, mdm, hp, ex, oof, ft, pt, p1t, vs⟩ := m
    simp only [TSModel.name] at h1 hsuf
    simp only [TSModel.path, TSModel.name] at h2
    cases oof with
    | none =>
        simp [convertToRefitFullViaCopy, renameModel, saveModel, loadModel,
          setContexts, if_pos h1, if_pos hsuf, List.lookup, artifact_paths_ne,
          List.dropLast_concat, ← h2]
    | some o =>
        simp [convertToRefitFullViaCopy, renameModel, saveModel, loadModel,
          setContexts, if_pos h1, if_pos hsuf, List.lookup, artifact_paths_ne,
          artifact_paths_ne2, List.dropLast_concat, ← h2]
  rw [hmain]
  exact ⟨rfl, rfl, rfl, rfl⟩

/-- Witness for claim C9: converting a concrete fitted model yields a refit
model with cleared `val_score`/`predict_time`, the suffixed name and the
preserved configuration, while the original object is unchanged. -/
theorem convert_refit_copy_witness :
    fittedSampleModel.name ≠ "" ∧
    fittedSampleModel.path = fittedSampleModel.path.dropLast ++ [fittedSampleModel.name] ∧
    (convertToRefitFullViaCopy fittedSampleModel).map (fun r => r.2) =
      some fittedSampleModel ∧
    (convertToRefitFullViaCopy fittedSampleModel).map
        (fun r => (r.1.val_score, r.1.predict_time)) = some (none, none) ∧
    (convertToRefitFullViaCopy fittedSampleModel).map (fun r => r.1.name) =
      some (fittedSampleModel.name ++ REFIT_FULL_SUFFIX) ∧
    (convertToRefitFullViaCopy fittedSampleModel).map (fun r => r.1.fit_time) =
      some (some 3) := by
  refine ⟨by decide, by decide, (convert_refit_copy fittedSampleModel (by decide)
    (by decide)).1, (convert_refit_copy fittedSampleModel (by decide) (by decide)).2.1,
    (convert_refit_copy fittedSampleModel (by decide) (by decide)).2.2.1, ?_⟩
  have h := (convert_refit_copy fittedSampleModel (by decide) (by decide)).2.2.2
  have h2 := congrArg (Option.map (fun t => t.2.2.2.2.2.2.2.2.2)) h
  simp only [Option.map_map] at h2
  exact h2.trans (by decide)
